import Mathlib

/-!
Verification of the grand-central resilience core and semantic pattern engine.

This file gives a shallow embedding of:
  * the per-provider circuit breaker and the retry executor
    (`server/services/error-handler.ts`),
  * the fallback router and the fan-out dispatch
    (`server/services/error-handler.ts`, `server/routes.ts`),
  * the companion pattern engine (`SimpleCompanionService.monitorDiscussion`),
  * the semantic memory store (`server/services/semantic-memory.ts`),
and proves or refutes the frozen behavioural claims against it.

External effects (the LLM HTTP calls, the embedding endpoint, the storage
layer, the wall clock) are modelled as explicit parameters: provider calls
and embedding calls are oracles, time is a natural-number millisecond
counter advanced by the modelled sleeps, and storage writes are returned
as values.  JavaScript numbers used by the similarity code are modelled as
real numbers extended with the IEEE special values (`nan`, infinities).
-/

namespace GrandCentral

/-! ### Circuit breaker (`error-handler.ts`, lines 48-152) -/

/-- Provider identity: the closed set of four backends. -/
inductive Provider : Type
  | openai
  | claude
  | deepseek
  | grok
deriving DecidableEq, Repr

/-- Circuit breaker state tag (`CLOSED | OPEN | HALF_OPEN`). -/
inductive BState : Type
  | closed
  | «open»
  | halfOpen
deriving DecidableEq, Repr

/-- `CircuitBreakerState`: failure count, last failure timestamp (ms),
state tag.  `lastFailureTime : Option Nat` models the nullable `Date`. -/
structure Breaker : Type where
  failures : Nat
  lastFailureTime : Option Nat
  state : BState
deriving DecidableEq, Repr

/-- `CIRCUIT_BREAKER_CONFIG.failureThreshold`. -/
def failureThreshold : Nat := 3

/-- `CIRCUIT_BREAKER_CONFIG.cooldownMs` (30 seconds). -/
def cooldownMs : Nat := 30000

/-- The lazily-initialised breaker (`getCircuitBreaker` on a fresh provider). -/
def freshBreaker : Breaker := ⟨0, none, BState.closed⟩

/-- `canAttemptRequest`: returns the boolean answer together with the
(possibly mutated) breaker — the OPEN→HALF_OPEN transition is a side
effect of the check.  A `null` last-failure time stands for an infinite
elapsed time, hence allows the probe.  The test `now - t > cooldownMs`
uses truncated natural subtraction, which agrees with the JavaScript
signed test for every pair of timestamps: when `now < t` both give a
non-elapsed cooldown. -/
def canAttemptRequest (b : Breaker) (now : Nat) : Bool × Breaker :=
  match b.state with
  | BState.closed => (true, b)
  | BState.open =>
    match b.lastFailureTime with
    | some t =>
      if now - t > cooldownMs then
        (true, { b with state := BState.halfOpen })
      else
        (false, b)
    | none => (true, { b with state := BState.halfOpen })
  | BState.halfOpen => (true, b)

/-- `recordSuccess`: reset the count, force CLOSED. -/
def recordSuccess (b : Breaker) : Breaker :=
  { b with failures := 0, state := BState.closed }

/-- `recordFailure`: increment the count, stamp the time, open the breaker
once the count reaches the threshold. -/
def recordFailure (b : Breaker) (now : Nat) : Breaker :=
  let f := b.failures + 1
  { failures := f
    lastFailureTime := some now
    state := if failureThreshold ≤ f then BState.open else b.state }

/-! ### Retry executor (`error-handler.ts`, lines 147-205) -/

/-- `RETRY_CONFIG.maxRetries`. -/
def maxRetries : Nat := 3

/-- `RETRY_CONFIG.baseDelayMs`. -/
def baseDelayMs : Nat := 1000

/-- `RETRY_CONFIG.maxDelayMs`. -/
def maxDelayMs : Nat := 10000

/-- `calculateBackoffDelay`: `min(base * 2^attempt, max)`. -/
def calculateBackoffDelay (attemptNumber : Nat) : Nat :=
  min (baseDelayMs * 2 ^ attemptNumber) maxDelayMs

/-- The JavaScript `Error` values flowing through `retryWithBackoff`:
either the circuit-open error thrown before the operation, an error
produced by the wrapped operation, or the (unreachable) synthetic
`All retries exhausted` error. -/
inductive RetryErr (E : Type) : Type
  | circuitOpen
  | opFailed (e : E)
  | exhausted
deriving DecidableEq, Repr

/-- Observable outcome of one `retryWithBackoff` run: the returned value or
thrown error, the number of times the wrapped operation was invoked, the
number of `recordFailure` calls, the list of backoff sleeps performed, the
final breaker, and the final clock. -/
structure RetryOutcome (E V : Type) : Type where
  result : Except (RetryErr E) V
  fnCalls : Nat
  recordFailureCalls : Nat
  delays : List Nat
  breaker : Breaker
  endTime : Nat
deriving Repr

/-- One pass of the `for (attempt = 0; attempt <= maxRetries; ...)` loop of
`retryWithBackoff`.  `fuel` is the number of loop iterations left
(`maxRetries + 1 - attempt`); the wrapped operation is an oracle indexed
by how many times it has been invoked so far.  The circuit-open throw
happens inside the `try`, so it reaches the same `catch` as an operation
failure: the breaker records a failure and, when attempts remain, the loop
sleeps and retries. -/
def retryGo (fn : Nat → Except E V) :
    Nat → Nat → Nat → Nat → List Nat → Breaker → Nat →
    Option (RetryErr E) → RetryOutcome E V
  | 0, _, calls, rf, delays, b, t, lastErr =>
    ⟨Except.error (lastErr.getD RetryErr.exhausted), calls, rf, delays, b, t⟩
  | fuel + 1, attempt, calls, rf, delays, b, t, _lastErr =>
    let checked := canAttemptRequest b t
    if checked.1 then
      match fn calls with
      | Except.ok v =>
        ⟨Except.ok v, calls + 1, rf, delays, recordSuccess checked.2, t⟩
      | Except.error e =>
        let b2 := recordFailure checked.2 t
        if attempt < maxRetries then
          let d := calculateBackoffDelay attempt
          retryGo fn fuel (attempt + 1) (calls + 1) (rf + 1) (delays ++ [d])
            b2 (t + d) (some (RetryErr.opFailed e))
        else
          retryGo fn fuel (attempt + 1) (calls + 1) (rf + 1) delays
            b2 t (some (RetryErr.opFailed e))
    else
      let b2 := recordFailure checked.2 t
      if attempt < maxRetries then
        let d := calculateBackoffDelay attempt
        retryGo fn fuel (attempt + 1) calls (rf + 1) (delays ++ [d])
          b2 (t + d) (some RetryErr.circuitOpen)
      else
        retryGo fn fuel (attempt + 1) calls (rf + 1) delays
          b2 t (some RetryErr.circuitOpen)

/-- `retryWithBackoff`, started with attempt 0, no calls yet, the given
breaker for the provider, and the given start time. -/
def retryWithBackoff (fn : Nat → Except E V) (b : Breaker) (t : Nat) :
    RetryOutcome E V :=
  retryGo fn (maxRetries + 1) 0 0 0 [] b t none

/-- Folding a sequence of `recordFailure` calls at the given timestamps. -/
def applyFailures (b : Breaker) (ts : List Nat) : Breaker :=
  ts.foldl (fun acc t => recordFailure acc t) b

/-! ### Fallback router (`error-handler.ts`, lines 247-270) and the
per-provider dispatch unit (`routes.ts`, `handleLLMResponse`). -/

/-- `FALLBACK_HIERARCHY`: fixed preference list per provider. -/
def fallbackHierarchy : Provider → List Provider
  | Provider.openai => [Provider.claude, Provider.deepseek, Provider.grok]
  | Provider.claude => [Provider.openai, Provider.deepseek, Provider.grok]
  | Provider.deepseek => [Provider.openai, Provider.claude, Provider.grok]
  | Provider.grok => [Provider.openai, Provider.claude, Provider.deepseek]

/-- Rendering of the provider tag into the template strings. -/
def pname : Provider → String
  | Provider.openai => "openai"
  | Provider.claude => "claude"
  | Provider.deepseek => "deepseek"
  | Provider.grok => "grok"

/-- `getFallbackProvider`: first entry of the hierarchy that is among the
available providers and whose breaker currently allows an attempt.  The
breaker consultation is abstracted as the boolean predicate `canAtt`. -/
def getFallbackProvider (canAtt : Provider → Bool)
    (failedProvider : Provider) (availableProviders : List Provider) :
    Option Provider :=
  (fallbackHierarchy failedProvider).find?
    (fun f => availableProviders.contains f && canAtt f)

/-- Observable result of one `handleLLMResponse` chain: the saved message
content and the sequence of providers on which `generateLLMResponse` was
invoked, in order. -/
structure ChainOut : Type where
  content : String
  attempts : List Provider
deriving DecidableEq, Repr

/-- `handleLLMResponse` (`routes.ts` lines 34-107): try the provider; on
failure consult the fallback router and recurse with the chosen substitute
filtered out of the available list, prefixing the degraded note; with no
eligible substitute, save a degraded message carrying the error text.  The
provider call `generateLLMResponse` is an oracle `llm`; the recursive call
never throws in this model (storage writes are total), so the
`fallbackResponse` truthiness test and the inner catch always take the
success path. -/
def handleLLMResponse (llm : Provider → Except String String)
    (canAtt : Provider → Bool) (provider : Provider)
    (available : List Provider) : ChainOut :=
  match llm provider with
  | Except.ok r => ⟨r, [provider]⟩
  | Except.error e =>
    match hfb : getFallbackProvider canAtt provider available with
    | some f =>
      let inner :=
        handleLLMResponse llm canAtt f (available.filter (fun p => p ≠ f))
      ⟨"⚠️ " ++ pname provider ++ " unavailable. Response from " ++
          pname f ++ ":\n\n" ++ inner.content,
        provider :: inner.attempts⟩
    | none =>
      ⟨"⚠️ " ++ pname provider ++ " response unavailable: " ++ e, [provider]⟩
termination_by available.length
decreasing_by
  have hp := List.find?_some hfb
  simp only [Bool.and_eq_true] at hp
  exact List.length_filter_lt_length_iff_exists.mpr
    ⟨f, List.elem_iff.mp hp.1, by simp⟩

/-- The four providers in the order the message route enumerates them. -/
def allProviders : List Provider :=
  [Provider.openai, Provider.claude, Provider.deepseek, Provider.grok]

/-- The `availableProviders` list built from the configured API keys
(`routes.ts` lines 380-384). -/
def availList (hasKey : Provider → Bool) : List Provider :=
  allProviders.filter hasKey

/-- The providers for which a dispatch unit is spawned: enabled in the
request and holding an API key (`routes.ts` lines 387-412). -/
def launchedProviders (enabled hasKey : Provider → Bool) : List Provider :=
  allProviders.filter (fun p => enabled p && hasKey p)

/-- The fan-out dispatch of `POST /api/discussions/:id/messages`: one
`handleLLMResponse` unit per enabled provider with a key, all awaited by
`Promise.allSettled`; since no unit rejects in this model, every unit
contributes exactly one outcome. -/
def dispatch (llm : Provider → Except String String)
    (canAtt enabled hasKey : Provider → Bool) : List ChainOut :=
  (launchedProviders enabled hasKey).map
    (fun p => handleLLMResponse llm canAtt p (availList hasKey))

/-! ### JavaScript numbers for the similarity code

The arithmetic in `semantic-memory.ts` runs on IEEE doubles.  We model a
JavaScript number as a real number extended with the special values `nan`,
`posInf` and `negInf` (signed zero and rounding are not modelled; none of
the verified claims depend on them).  Out-of-bounds array access yields
`undefined`, and `number * undefined` is `NaN`; the dot-product fold below
reproduces that. -/

inductive JSNum : Type
  | num (x : ℝ)
  | posInf
  | negInf
  | nan

/-- IEEE addition on the extended reals. -/
noncomputable def jsAdd : JSNum → JSNum → JSNum
  | JSNum.num x, JSNum.num y => JSNum.num (x + y)
  | JSNum.nan, _ => JSNum.nan
  | _, JSNum.nan => JSNum.nan
  | JSNum.posInf, JSNum.negInf => JSNum.nan
  | JSNum.negInf, JSNum.posInf => JSNum.nan
  | JSNum.posInf, _ => JSNum.posInf
  | _, JSNum.posInf => JSNum.posInf
  | JSNum.negInf, _ => JSNum.negInf
  | _, JSNum.negInf => JSNum.negInf

/-- IEEE subtraction on the extended reals. -/
noncomputable def jsSub : JSNum → JSNum → JSNum
  | JSNum.num x, JSNum.num y => JSNum.num (x - y)
  | JSNum.nan, _ => JSNum.nan
  | _, JSNum.nan => JSNum.nan
  | JSNum.posInf, JSNum.posInf => JSNum.nan
  | JSNum.negInf, JSNum.negInf => JSNum.nan
  | JSNum.posInf, _ => JSNum.posInf
  | JSNum.negInf, _ => JSNum.negInf
  | _, JSNum.posInf => JSNum.negInf
  | _, JSNum.negInf => JSNum.posInf

/-- IEEE division on the extended reals: `0 / 0` is `NaN`, a nonzero
number over zero is a signed infinity. -/
noncomputable def jsDiv : JSNum → JSNum → JSNum
  | JSNum.num x, JSNum.num y =>
    if y = 0 then
      if x = 0 then JSNum.nan
      else if 0 < x then JSNum.posInf else JSNum.negInf
    else JSNum.num (x / y)
  | JSNum.nan, _ => JSNum.nan
  | _, JSNum.nan => JSNum.nan
  | JSNum.posInf, JSNum.posInf => JSNum.nan
  | JSNum.posInf, JSNum.negInf => JSNum.nan
  | JSNum.negInf, JSNum.posInf => JSNum.nan
  | JSNum.negInf, JSNum.negInf => JSNum.nan
  | JSNum.posInf, JSNum.num y => if y < 0 then JSNum.negInf else JSNum.posInf
  | JSNum.negInf, JSNum.num y => if y < 0 then JSNum.posInf else JSNum.negInf
  | JSNum.num _, JSNum.posInf => JSNum.num 0
  | JSNum.num _, JSNum.negInf => JSNum.num 0

/-- The JavaScript `>=` comparison: any comparison with `NaN` is false. -/
noncomputable def jsGeB : JSNum → JSNum → Bool
  | JSNum.num x, JSNum.num y => decide (y ≤ x)
  | JSNum.nan, _ => false
  | _, JSNum.nan => false
  | JSNum.posInf, _ => true
  | JSNum.negInf, JSNum.negInf => true
  | JSNum.negInf, _ => false
  | JSNum.num _, JSNum.posInf => false
  | JSNum.num _, JSNum.negInf => true

/-! ### Semantic memory store (`server/services/semantic-memory.ts`) -/

/-- Conversation phase tag. -/
inductive Phase : Type
  | plasma
  | gas
  | liquid
  | solid
deriving DecidableEq, Repr

/-- `MemoryItem.metadata`. -/
structure MemoryMeta : Type where
  llm : String
  phase : Phase
  breathCount : Nat
  patterns : List String
  timestamp : Nat

/-- `MemoryItem`: a stored memory; embeddings returned by the embedding
endpoint are plain finite doubles, modelled as reals. -/
structure MemoryItem : Type where
  id : String
  content : String
  embedding : List ℝ
  metadata : MemoryMeta

/-- One entry of the `findPatterns` result. -/
structure PatternResult : Type where
  content : String
  similarity : JSNum
  metadata : MemoryMeta

/-- The accumulator pass of
`a.reduce((sum, val, i) => sum + val * b[i], 0)`: when `a` outlives `b`,
`b[i]` is `undefined` and the product (hence the whole running sum)
becomes `NaN`. -/
noncomputable def dotAux : List ℝ → List ℝ → JSNum → JSNum
  | [], _, acc => acc
  | _ :: xs, [], acc => dotAux xs [] (jsAdd acc JSNum.nan)
  | x :: xs, y :: ys, acc => dotAux xs ys (jsAdd acc (JSNum.num (x * y)))

/-- The dot product of `cosineSimilarity`. -/
noncomputable def dotProductJS (a b : List ℝ) : JSNum :=
  dotAux a b (JSNum.num 0)

/-- `a.reduce((sum, val) => sum + val * val, 0)`. -/
def sumSq (v : List ℝ) : ℝ :=
  v.foldl (fun s x => s + x * x) 0

/-- `Math.sqrt` of the sum of squares; the argument is nonnegative, so the
real square root agrees with the JavaScript one. -/
noncomputable def magnitudeJS (v : List ℝ) : ℝ :=
  Real.sqrt (sumSq v)

/-- `cosineSimilarity` (`semantic-memory.ts` lines 21-26): no length check
and no zero-norm check; the division is the JavaScript one. -/
noncomputable def cosineSimilarity (a b : List ℝ) : JSNum :=
  jsDiv (dotProductJS a b) (JSNum.num (magnitudeJS a * magnitudeJS b))

/-- `storeMemory`: ask the embedding endpoint (an oracle response), and on
success append the memory; the surrounding `try`/`catch` turns any
embedding failure into a no-op, so the function always returns normally.
`now` is `Date.now()`. -/
noncomputable def storeMemory (st : List MemoryItem) (llmId message : String)
    (currentPhase : Phase) (breathNumber : Nat)
    (detectedPatterns : List String) (now : Nat)
    (embedResp : Except String (List ℝ)) : List MemoryItem :=
  match embedResp with
  | Except.error _ => st
  | Except.ok emb =>
    st ++ [{ id := llmId ++ "-" ++ toString now
             content := message
             embedding := emb
             metadata := { llm := llmId, phase := currentPhase
                           breathCount := breathNumber
                           patterns := detectedPatterns, timestamp := now } }]

/-- The per-memory record built inside `findPatterns`. -/
noncomputable def queryResult (queryEmbedding : List ℝ) (m : MemoryItem) :
    PatternResult :=
  ⟨m.content, cosineSimilarity queryEmbedding m.embedding, m.metadata⟩

/-- The comparator `(a, b) => b.similarity - a.similarity` as used by
`Array.prototype.sort`; per the ECMAScript `SortCompare`, a `NaN`
comparator result is treated as zero. -/
noncomputable def sortLe (a b : PatternResult) : Bool :=
  match jsSub b.similarity a.similarity with
  | JSNum.num v => decide (v ≤ 0)
  | JSNum.nan => true
  | JSNum.posInf => false
  | JSNum.negInf => true

/-- `findPatterns` (`semantic-memory.ts` lines 72-112): early return on an
empty store (before any embedding call), one embedding call otherwise; on
an embedding error the `catch` returns the empty list.  On success: map
every stored memory to its similarity record, filter by
`similarity >= threshold`, sort by descending similarity, truncate to
`limit`.  The second component counts embedding-endpoint calls. -/
noncomputable def findPatterns (st : List MemoryItem)
    (embedResp : Except String (List ℝ)) (threshold : ℝ) (limit : Nat) :
    List PatternResult × Nat :=
  if st.isEmpty then ([], 0)
  else
    match embedResp with
    | Except.error _ => ([], 1)
    | Except.ok qv =>
      let results := st.map (queryResult qv)
      let filteredResults :=
        ((results.filter
            (fun r => jsGeB r.similarity (JSNum.num threshold))).mergeSort
          sortLe).take limit
      (filteredResults, 1)

/-- Verification-side projection of a similarity value to its real number
(defaulting to `0` on the special values); used only to state ordering
properties of results whose similarities are proved to be ordinary
numbers. -/
def simVal : JSNum → ℝ
  | JSNum.num x => x
  | _ => 0

/-- Verification-side total comparison agreeing with `sortLe` on records
whose similarities are ordinary numbers. -/
noncomputable def goodLe (a b : PatternResult) : Bool :=
  decide (simVal b.similarity ≤ simVal a.similarity)

/-! ### Companion pattern engine (`SimpleCompanionService.monitorDiscussion`) -/

/-- The `companionConfig` settings object. -/
structure CompanionCfg : Type where
  enabled : Bool
  autoSuggest : Bool
deriving DecidableEq, Repr

/-- The discussion fields the engine reads and writes
(`breathCount || 0` makes a missing count behave as `0`,
modelled by a plain `Nat`). -/
structure Discussion : Type where
  id : String
  breathCount : Nat
  detectedPatterns : List String
deriving DecidableEq, Repr

/-- The suggestion record saved by `addCompanionSuggestion`.  `confidence`
is the local `const confidence = similar.length / 3`, surfaced in the
rendered content as `Math.round(confidence * 100)`. -/
structure Suggestion : Type where
  id : String
  discussionId : String
  topic : String
  confidence : ℚ
  content : String
deriving DecidableEq, Repr

/-- Observable effects of one `monitorDiscussion` call: the companion
message returned to the caller (its content), the
`storage.updateDiscussion` arguments `(breathCount, detectedPatterns)` if
that call happened, the saved suggestion if any, and the breath number of
the announcement message if one was created. -/
structure MonitorOutcome : Type where
  response : Option String
  updateCall : Option (Nat × List String)
  savedSuggestion : Option Suggestion
  announcedBreath : Option Nat
deriving DecidableEq, Repr

/-- `slice(-n)`: the last `n` elements. -/
def takeLast (n : Nat) (l : List α) : List α :=
  l.drop (l.length - n)

/-- `Array.from(new Set(xs))`: deduplication keeping first occurrences in
insertion order. -/
def jsSetList (l : List String) : List String :=
  l.foldl (fun acc x => if x ∈ acc then acc else acc ++ [x]) []

/-- `detectTopicFromPatterns`: the first distinct metadata pattern tag,
else the first word longer than 4 characters of the first matched content,
else the literal fallback.  The empty-input case cannot arise (the caller
guarantees at least 2 matches). -/
def detectTopic (patternsIn : List PatternResult) : String :=
  let uniq := jsSetList (patternsIn.flatMap (fun p => p.metadata.patterns))
  match uniq with
  | t :: _ => t
  | [] =>
    match patternsIn with
    | [] => "this topic"
    | p :: _ =>
      let words := (p.content.toLower.split (fun c => c.isWhitespace)).filter
        (fun w => 4 < w.length)
      match words with
      | w :: _ => w
      | [] => "this topic"

/-- `Math.round` on the rationals used for the confidence percentage. -/
def jsRound (q : ℚ) : ℤ :=
  ⌊q + 1 / 2⌋

/-- `monitorDiscussion` (`SimpleCompanionService`): analyse the last 10
messages; bail out with no effect when fewer than 3 remain, when no
companion config exists, or when it is disabled.  With an OpenAI key, at
least 2 similarity matches (the `findPatterns` response is the oracle
input `similar`) and `autoSuggest` on: detect a topic, set
`confidence = matches / 3`, increment the discussion breath count when the
discussion exists, save and return a suggestion.  Otherwise fall back to a
periodic advisory every 8 messages.  `allMsgs` carries the content of the
discussion messages; `now` is `Date.now()`. -/
def monitorDiscussion (discussionId : String) (allMsgs : List String)
    (companionCfg : Option CompanionCfg) (openaiKey : Option String)
    (similar : List PatternResult) (discussion : Option Discussion)
    (now : Nat) : MonitorOutcome :=
  let messages := takeLast 10 allMsgs
  if messages.length < 3 then ⟨none, none, none, none⟩
  else
    match companionCfg with
    | none => ⟨none, none, none, none⟩
    | some cfg =>
      if !cfg.enabled then ⟨none, none, none, none⟩
      else if openaiKey.isSome && decide (2 ≤ similar.length) &&
          cfg.autoSuggest then
        let topic := detectTopic similar
        let confidence : ℚ := (similar.length : ℚ) / 3
        let updates :=
          match discussion with
          | some d =>
            let newBreathCount := d.breathCount + 1
            let pats :=
              jsSetList (similar.flatMap (fun p => p.metadata.patterns))
            (some (newBreathCount,
                if pats.length > 0 then pats else [topic]),
              some newBreathCount)
          | none => ((none : Option (Nat × List String)), (none : Option Nat))
        let sugg : Suggestion :=
          { id := "suggestion-" ++ toString now
            discussionId := discussionId
            topic := topic
            confidence := confidence
            content := "🧠 I notice you\x27re exploring " ++ topic ++
              ". Shall I crystallize a specialized agent? (Confidence: " ++
              toString (jsRound (confidence * 100)) ++ "%)" }
        ⟨some sugg.content, updates.1, some sugg, updates.2⟩
      else if messages.length > 0 && messages.length % 8 == 0 then
        ⟨some ("🧠 I\x27m monitoring this discussion (" ++
            toString messages.length ++
            " messages). Semantic pattern detection is active. I\x27ll suggest specialized agents when I detect recurring topics."),
          none, none, none⟩
      else ⟨none, none, none, none⟩

/-! ## Helper lemmas: the fallback chain -/

/-- A chosen fallback is a member of the available list. -/
theorem getFallbackProvider_mem {canAtt : Provider → Bool} {p f : Provider}
    {avail : List Provider}
    (h : getFallbackProvider canAtt p avail = some f) : f ∈ avail := by
  have hp := List.find?_some h
  simp only [Bool.and_eq_true] at hp
  exact List.elem_iff.mp hp.1

theorem handleLLMResponse_ok (llm : Provider → Except String String)
    (canAtt : Provider → Bool) (p : Provider) (avail : List Provider)
    (r : String) (h : llm p = Except.ok r) :
    handleLLMResponse llm canAtt p avail = ⟨r, [p]⟩ := by
  rw [handleLLMResponse.eq_def, h]

theorem handleLLMResponse_fb (llm : Provider → Except String String)
    (canAtt : Provider → Bool) (p : Provider) (avail : List Provider)
    (e : String) (f : Provider) (h : llm p = Except.error e)
    (hfb : getFallbackProvider canAtt p avail = some f) :
    handleLLMResponse llm canAtt p avail =
      ⟨"⚠️ " ++ pname p ++ " unavailable. Response from " ++ pname f ++
          ":\n\n" ++
          (handleLLMResponse llm canAtt f
            (avail.filter (fun q => q ≠ f))).content,
        p :: (handleLLMResponse llm canAtt f
          (avail.filter (fun q => q ≠ f))).attempts⟩ := by
  rw [handleLLMResponse.eq_def, h, hfb]

theorem handleLLMResponse_none (llm : Provider → Except String String)
    (canAtt : Provider → Bool) (p : Provider) (avail : List Provider)
    (e : String) (h : llm p = Except.error e)
    (hfb : getFallbackProvider canAtt p avail = none) :
    handleLLMResponse llm canAtt p avail =
      ⟨"⚠️ " ++ pname p ++ " response unavailable: " ++ e, [p]⟩ := by
  rw [handleLLMResponse.eq_def, h, hfb]

/-- Shape of the attempted-provider sequence of one dispatch chain: the
head is the requested provider, and the remaining attempts are distinct
members of the available list. -/
theorem handleLLM_attempts_shape (llm : Provider → Except String String)
    (canAtt : Provider → Bool) (p : Provider) (avail : List Provider) :
    ∃ tail, (handleLLMResponse llm canAtt p avail).attempts = p :: tail ∧
      tail.Nodup ∧ ∀ q ∈ tail, q ∈ avail := by
  induction p, avail using handleLLMResponse.induct llm canAtt with
  | case1 p avail r hp =>
    exact ⟨[], by rw [handleLLMResponse_ok llm canAtt p avail r hp],
      List.nodup_nil, by simp⟩
  | case2 p avail e hp f hfb ih =>
    obtain ⟨t2, ht2, hnd, hmem⟩ := ih
    refine ⟨f :: t2, ?_, ?_, ?_⟩
    · rw [handleLLMResponse_fb llm canAtt p avail e f hp hfb]
      simp only [List.cons.injEq, true_and]
      exact ht2
    · refine List.nodup_cons.mpr ⟨?_, hnd⟩
      intro hf
      have := hmem f hf
      simp at this
    · intro q hq
      rcases List.mem_cons.mp hq with h | h
      · subst h; exact getFallbackProvider_mem hfb
      · exact List.mem_of_mem_filter (hmem q h)
  | case3 p avail e hp hfb =>
    exact ⟨[], by rw [handleLLMResponse_none llm canAtt p avail e hp hfb],
      List.nodup_nil, by simp⟩

/-! ## Helper lemmas: circuit breaker -/

theorem canAttempt_closed (b : Breaker) (h : b.state = BState.closed)
    (now : Nat) : canAttemptRequest b now = (true, b) := by
  simp [canAttemptRequest, h]

theorem canAttempt_open_recent (f : Nat) (tl now : Nat)
    (h : now ≤ tl + cooldownMs) :
    canAttemptRequest ⟨f, some tl, BState.open⟩ now =
      (false, ⟨f, some tl, BState.open⟩) := by
  simp only [canAttemptRequest]
  rw [if_neg]
  omega

theorem applyFailures_cons (b : Breaker) (t : Nat) (ts : List Nat) :
    applyFailures b (t :: ts) = applyFailures (recordFailure b t) ts := rfl

theorem applyFailures_failures (ts : List Nat) :
    ∀ b : Breaker, (applyFailures b ts).failures = b.failures + ts.length := by
  induction ts with
  | nil => intro b; rfl
  | cons t ts ih =>
    intro b
    rw [applyFailures_cons, ih]
    simp [recordFailure]
    omega

theorem applyFailures_last (ts : List Nat) :
    ∀ (b : Breaker) (tl : Nat), ts.getLast? = some tl →
      (applyFailures b ts).lastFailureTime = some tl := by
  induction ts with
  | nil => intro b tl h; simp at h
  | cons t ts ih =>
    intro b tl h
    match ts, h with
    | [], h =>
      simp at h
      subst h
      rfl
    | t2 :: ts2, h =>
      rw [List.getLast?_cons_cons] at h
      rw [applyFailures_cons]
      exact ih _ tl h

theorem applyFailures_state_open (ts : List Nat) :
    ∀ b : Breaker, failureThreshold ≤ b.failures + ts.length → ts ≠ [] →
      (applyFailures b ts).state = BState.open := by
  induction ts with
  | nil => intro b _ hne; exact absurd rfl hne
  | cons t ts ih =>
    intro b hcount _
    match ts with
    | [] =>
      simp [applyFailures, recordFailure]
      intro hlt
      exfalso
      simp [failureThreshold] at hcount hlt
      omega
    | t2 :: ts2 =>
      rw [applyFailures_cons]
      refine ih _ ?_ (by simp)
      simp [recordFailure] at hcount ⊢
      omega

/-! ## Claim C7 -/

/-- C7: after at least 3 consecutive `recordFailure` calls with no
intervening success, starting from any breaker state, `canAttemptRequest`
answers `false` — and leaves the breaker untouched — at every instant up
to `cooldown` past the last failure time; in particular immediately after
the third failure. -/
theorem breaker_blocks_after_three_failures (b0 : Breaker) (ts : List Nat)
    (tl : Nat) (hlen : 3 ≤ ts.length) (hlast : ts.getLast? = some tl)
    (now : Nat) (hnow : now ≤ tl + cooldownMs) :
    canAttemptRequest (applyFailures b0 ts) now =
      (false, applyFailures b0 ts) := by
  have hne : ts ≠ [] := by
    intro h
    subst h
    simp at hlen
  have hstate : (applyFailures b0 ts).state = BState.open := by
    refine applyFailures_state_open ts b0 ?_ hne
    have : failureThreshold = 3 := rfl
    omega
  have hlastf : (applyFailures b0 ts).lastFailureTime = some tl :=
    applyFailures_last ts b0 tl hlast
  cases hAB : applyFailures b0 ts with
  | mk f lf s =>
    rw [hAB] at hstate hlastf
    simp only at hstate hlastf
    subst hstate
    subst hlastf
    exact canAttempt_open_recent f tl now hnow

/-- Witness for C7 at a concrete failure sequence. -/
theorem breaker_blocks_after_three_failures_witness :
    3 ≤ ([5, 6, 7] : List Nat).length ∧
      ([5, 6, 7] : List Nat).getLast? = some 7 ∧ 30007 ≤ 7 + cooldownMs ∧
      canAttemptRequest (applyFailures freshBreaker [5, 6, 7]) 30007 =
        (false, applyFailures freshBreaker [5, 6, 7]) :=
  ⟨by decide, by decide, by decide,
    breaker_blocks_after_three_failures freshBreaker [5, 6, 7] 7 (by decide)
      (by decide) 30007 (by decide)⟩

/-! ## Claim C1 -/

/-- C1: evaluation of `retryWithBackoff` at a blocked provider.  The claim
says a `may_attempt = false` answer fails immediately with a CircuitOpen
error, performs no further retry attempts, and is not counted in the
breaker failure accounting.  The code throws the circuit-open error inside
its own `try`, so the `catch` records it as an ordinary failure and
retries: starting from an OPEN breaker (3 failures, last failure at time
0) and calling at time 0, the wrapped operation is never invoked, yet the
executor records 4 additional breaker failures, sleeps the three backoff
delays, and only then rethrows the circuit-open error with the failure
count driven from 3 to 7. -/
theorem retry_blocked_attempt_is_counted_and_retried :
    retryWithBackoff (fun _ => (Except.ok "response" : Except String String))
        ⟨3, some 0, BState.open⟩ 0 =
      ⟨Except.error RetryErr.circuitOpen, 0, 4, [1000, 2000, 4000],
        ⟨7, some 7000, BState.open⟩, 7000⟩ := rfl

/-! ## Claim C2 -/

/-- C2 counterexample: an operation that fails on every attempt is invoked
only 3 times, not `max_retries + 1 = 4`, and the returned error is the
circuit-breaker error, not the final error produced by the operation: the
third consecutive failure opens the breaker, so the fourth loop iteration
is blocked before reaching the operation. -/
theorem retry_always_failing_three_attempts_only :
    (retryWithBackoff (fun i => (Except.error (toString i) :
          Except String String)) freshBreaker 0).fnCalls = 3 ∧
      (retryWithBackoff (fun i => (Except.error (toString i) :
          Except String String)) freshBreaker 0).fnCalls ≠ 4 ∧
      (retryWithBackoff (fun i => (Except.error (toString i) :
          Except String String)) freshBreaker 0).result =
        Except.error RetryErr.circuitOpen :=
  ⟨rfl, by decide, rfl⟩

set_option maxRecDepth 4000 in
/-- C2 (amended): with the default configuration (threshold 3 equals
`max_retries`), an operation failing on every attempt is invoked exactly 3
times — the breaker opens on the third consecutive failure and blocks the
fourth loop iteration — and `retryWithBackoff` throws the circuit-open
error; the backoff delays slept between attempts are non-decreasing and
capped at `max_delay`. -/
theorem retry_always_failing_spec (fn : Nat → Except String String)
    (h : ∀ i, ∃ e, fn i = Except.error e) (t : Nat) :
    (retryWithBackoff fn freshBreaker t).fnCalls = 3 ∧
      (retryWithBackoff fn freshBreaker t).result =
        Except.error RetryErr.circuitOpen ∧
      (retryWithBackoff fn freshBreaker t).delays = [1000, 2000, 4000] ∧
      (retryWithBackoff fn freshBreaker t).delays.Chain' (· ≤ ·) ∧
      ∀ d ∈ (retryWithBackoff fn freshBreaker t).delays, d ≤ maxDelayMs := by
  obtain ⟨e0, h0⟩ := h 0
  obtain ⟨e1, h1⟩ := h 1
  obtain ⟨e2, h2⟩ := h 2
  have key : retryWithBackoff fn freshBreaker t =
      ⟨Except.error RetryErr.circuitOpen, 3, 4, [1000, 2000, 4000],
        ⟨4, some (t + 1000 + 2000 + 4000), BState.open⟩,
        t + 1000 + 2000 + 4000⟩ := by
    simp [retryWithBackoff, retryGo, canAttemptRequest, recordFailure,
      freshBreaker, calculateBackoffDelay, failureThreshold, cooldownMs,
      maxRetries, baseDelayMs, maxDelayMs, h0, h1, h2]
  rw [key]
  refine ⟨rfl, rfl, rfl, ?_, ?_⟩
  · show List.Chain' (· ≤ ·) [1000, 2000, 4000]
    simp
  · show ∀ d ∈ [1000, 2000, 4000], d ≤ maxDelayMs
    decide

/-- Witness for C2 (amended) at a concrete always-failing operation. -/
theorem retry_always_failing_spec_witness :
    (∀ i : Nat, ∃ e, (fun j => (Except.error (toString j) :
        Except String String)) i = Except.error e) ∧
      (retryWithBackoff (fun j => (Except.error (toString j) :
          Except String String)) freshBreaker 0).fnCalls = 3 :=
  ⟨fun i => ⟨toString i, rfl⟩,
    (retry_always_failing_spec
      (fun j => (Except.error (toString j) : Except String String))
      (fun i => ⟨toString i, rfl⟩) 0).1⟩

/-! ## Claim C4 -/

unseal handleLLMResponse in
/-- C4 counterexample: with every provider available and every breaker
closed, if openai and claude fail while deepseek succeeds, the chain
started for openai attempts openai, falls back to claude, falls back to
openai AGAIN (the originally requested provider is never excluded from the
candidate set), and finally succeeds on deepseek: openai is attempted
twice in one dispatch chain. -/
theorem fallback_chain_reattempts_original :
    (handleLLMResponse
        (fun p => match p with
          | Provider.openai => Except.error "openai down"
          | Provider.claude => Except.error "claude down"
          | Provider.deepseek => Except.ok "deepseek reply"
          | Provider.grok => Except.ok "grok reply")
        (fun _ => true) Provider.openai allProviders).attempts =
      [Provider.openai, Provider.claude, Provider.openai,
        Provider.deepseek] ∧
      1 < (handleLLMResponse
        (fun p => match p with
          | Provider.openai => Except.error "openai down"
          | Provider.claude => Except.error "claude down"
          | Provider.deepseek => Except.ok "deepseek reply"
          | Provider.grok => Except.ok "grok reply")
        (fun _ => true) Provider.openai allProviders).attempts.count
        Provider.openai := by
  exact ⟨by decide, by decide⟩

/-- C4 (amended): every substitute chosen by the fallback router is
excluded from the candidate set of the subsequent hops of the chain, so
each provider other than the originally requested one is attempted at most
once; the originally requested provider itself is not excluded and may be
attempted once more as a fallback, hence is attempted at most twice, and
every chain starts with the requested provider. -/
theorem fallback_chain_attempt_bounds (llm : Provider → Except String String)
    (canAtt : Provider → Bool) (p : Provider) (avail : List Provider) :
    (∀ q : Provider, q ≠ p →
        (handleLLMResponse llm canAtt p avail).attempts.count q ≤ 1) ∧
      (handleLLMResponse llm canAtt p avail).attempts.count p ≤ 2 ∧
      (handleLLMResponse llm canAtt p avail).attempts.head? = some p := by
  obtain ⟨tail, hshape, hnd, _⟩ := handleLLM_attempts_shape llm canAtt p avail
  rw [hshape]
  refine ⟨?_, ?_, rfl⟩
  · intro q hq
    rw [List.count_cons_of_ne hq]
    exact List.nodup_iff_count_le_one.mp hnd q
  · rw [List.count_cons_self]
    have := List.nodup_iff_count_le_one.mp hnd p
    omega

/-- Witness for C4 (amended) at the counterexample scenario. -/
theorem fallback_chain_attempt_bounds_witness :
    Provider.claude ≠ Provider.openai ∧
      (handleLLMResponse
        (fun p => match p with
          | Provider.openai => Except.error "openai down"
          | Provider.claude => Except.error "claude down"
          | Provider.deepseek => Except.ok "deepseek reply"
          | Provider.grok => Except.ok "grok reply")
        (fun _ => true) Provider.openai allProviders).attempts.count
        Provider.claude ≤ 1 ∧
      (handleLLMResponse
        (fun p => match p with
          | Provider.openai => Except.error "openai down"
          | Provider.claude => Except.error "claude down"
          | Provider.deepseek => Except.ok "deepseek reply"
          | Provider.grok => Except.ok "grok reply")
        (fun _ => true) Provider.openai allProviders).attempts.count
        Provider.openai ≤ 2 :=
  ⟨by decide,
    (fallback_chain_attempt_bounds
        (fun p => match p with
          | Provider.openai => Except.error "openai down"
          | Provider.claude => Except.error "claude down"
          | Provider.deepseek => Except.ok "deepseek reply"
          | Provider.grok => Except.ok "grok reply")
        (fun _ => true) Provider.openai allProviders).1
      Provider.claude (by decide),
    (fallback_chain_attempt_bounds
        (fun p => match p with
          | Provider.openai => Except.error "openai down"
          | Provider.claude => Except.error "claude down"
          | Provider.deepseek => Except.ok "deepseek reply"
          | Provider.grok => Except.ok "grok reply")
        (fun _ => true) Provider.openai allProviders).2.1⟩

/-! ## Claim C6 -/

/-- When every provider call fails, a dispatch chain produces a message
that is marked degraded (it starts with the warning marker) and embeds the
terminal error text of the innermost frame of the chain. -/
theorem handleLLM_allfail_degraded (llm : Provider → Except String String)
    (canAtt : Provider → Bool)
    (hall : ∀ q, ∃ e, llm q = Except.error e) (p : Provider)
    (avail : List Provider) :
    ∃ q e s, llm q = Except.error e ∧
      (handleLLMResponse llm canAtt p avail).content =
        s ++ ("⚠️ " ++ pname q ++ " response unavailable: " ++ e) ∧
      ∃ s2, (handleLLMResponse llm canAtt p avail).content = "⚠️ " ++ s2 := by
  induction p, avail using handleLLMResponse.induct llm canAtt with
  | case1 p avail r hp =>
    obtain ⟨e, he⟩ := hall p
    rw [he] at hp
    exact absurd hp (by simp)
  | case2 p avail e hp f hfb ih =>
    obtain ⟨q, eq1, s, hq, hcontent, s2, hmark⟩ := ih
    rw [handleLLMResponse_fb llm canAtt p avail e f hp hfb]
    refine ⟨q, eq1, "⚠️ " ++ pname p ++ " unavailable. Response from " ++
      pname f ++ ":\n\n" ++ s, hq, ?_, ?_⟩
    · simp only [hcontent, String.append_assoc]
    · exact ⟨pname p ++ " unavailable. Response from " ++ pname f ++
        ":\n\n" ++ (handleLLMResponse llm canAtt f
          (avail.filter (fun q => q ≠ f))).content,
        by simp only [String.append_assoc]⟩
  | case3 p avail e hp hfb =>
    rw [handleLLMResponse_none llm canAtt p avail e hp hfb]
    exact ⟨p, e, "", hp, by simp, pname p ++ " response unavailable: " ++ e,
      by simp only [String.append_assoc]⟩

/-- C6: the fan-out dispatch produces exactly one outcome per enabled
provider holding an API key; the outcome in each slot is exactly the
standalone result of that same chain run alone (so one failing provider
cannot cancel or corrupt the outcome of another, no exception escapes: every
unit yields a value); a provider whose call succeeds yields its own
response unchanged regardless of the other providers; and when every
provider call terminally fails, each launched unit still yields an outcome,
a degraded message carrying the terminal error text of its chain. -/
theorem dispatch_outcomes_spec (llm : Provider → Except String String)
    (canAtt enabled hasKey : Provider → Bool) :
    (dispatch llm canAtt enabled hasKey).length =
        (launchedProviders enabled hasKey).length ∧
      (∀ i (h : i < (launchedProviders enabled hasKey).length),
        (dispatch llm canAtt enabled hasKey).get
            ⟨i, by simpa [dispatch] using h⟩ =
          handleLLMResponse llm canAtt
            ((launchedProviders enabled hasKey).get ⟨i, h⟩)
            (availList hasKey)) ∧
      (∀ p r, llm p = Except.ok r →
        handleLLMResponse llm canAtt p (availList hasKey) = ⟨r, [p]⟩) ∧
      ((∀ q, ∃ e, llm q = Except.error e) →
        ∀ p ∈ launchedProviders enabled hasKey,
          ∃ q e s, llm q = Except.error e ∧
            (handleLLMResponse llm canAtt p (availList hasKey)).content =
              s ++ ("⚠️ " ++ pname q ++ " response unavailable: " ++ e) ∧
            ∃ s2, (handleLLMResponse llm canAtt p
              (availList hasKey)).content = "⚠️ " ++ s2) := by
  refine ⟨by simp [dispatch], ?_, ?_, ?_⟩
  · intro i h
    simp [dispatch]
  · intro p r h
    exact handleLLMResponse_ok llm canAtt p (availList hasKey) r h
  · intro hall p _
    exact handleLLM_allfail_degraded llm canAtt hall p (availList hasKey)

/-- Witness for C6: two providers enabled with keys (openai and claude),
openai succeeding and claude failing with no eligible fallback. -/
theorem dispatch_outcomes_spec_witness :
    (dispatch
        (fun p => match p with
          | Provider.openai => Except.ok "OK"
          | _ => Except.error "boom")
        (fun q => q = Provider.claude)
        (fun q => q = Provider.openai || q = Provider.claude)
        (fun q => q = Provider.openai || q = Provider.claude)).length =
      (launchedProviders
        (fun q => q = Provider.openai || q = Provider.claude)
        (fun q => q = Provider.openai || q = Provider.claude)).length ∧
      ((fun p => match p with
          | Provider.openai => Except.ok "OK"
          | _ => Except.error "boom") Provider.openai =
        Except.ok "OK") ∧
      handleLLMResponse
        (fun p => match p with
          | Provider.openai => Except.ok "OK"
          | _ => Except.error "boom")
        (fun q => q = Provider.claude)
        Provider.openai
        (availList
          (fun q => q = Provider.openai || q = Provider.claude)) =
        ⟨"OK", [Provider.openai]⟩ :=
  ⟨(dispatch_outcomes_spec
      (fun p => match p with
        | Provider.openai => Except.ok "OK"
        | _ => Except.error "boom")
      (fun q => q = Provider.claude)
      (fun q => q = Provider.openai || q = Provider.claude)
      (fun q => q = Provider.openai || q = Provider.claude)).1,
    rfl,
    (dispatch_outcomes_spec
      (fun p => match p with
        | Provider.openai => Except.ok "OK"
        | _ => Except.error "boom")
      (fun q => q = Provider.claude)
      (fun q => q = Provider.openai || q = Provider.claude)
      (fun q => q = Provider.openai || q = Provider.claude)).2.2.1
      Provider.openai "OK" rfl⟩

/-! ## Claim C3 -/

/-- C3: evaluation of the pattern engine at a detection with 4 similarity
matches (the query limit is 5, so 4 matches are possible).  The code sets
`confidence = similar.length / 3` without the `min(1.0, ...)` clamp the
specification requires, so the emitted suggestion carries confidence
`4/3 ≈ 1.33`, which exceeds 1 and differs from `min 1 (4/3) = 1` —
violating the `confidence ∈ [0,1]` invariant of the Suggestion data
model (the rendered content even announces a 133% confidence). -/
theorem suggestion_confidence_unclamped :
    ((monitorDiscussion "d1" ["m1", "m2", "m3"] (some ⟨true, true⟩)
        (some "key")
        [⟨"c1", JSNum.num 1, ⟨"gpt4", Phase.plasma, 0, ["optimization"], 0⟩⟩,
         ⟨"c2", JSNum.num 1, ⟨"gpt4", Phase.plasma, 0, ["optimization"], 0⟩⟩,
         ⟨"c3", JSNum.num 1, ⟨"gpt4", Phase.plasma, 0, ["optimization"], 0⟩⟩,
         ⟨"c4", JSNum.num 1, ⟨"gpt4", Phase.plasma, 0, ["optimization"], 0⟩⟩]
        (some ⟨"d1", 0, []⟩) 0).savedSuggestion.map
      Suggestion.confidence) = some (4 / 3) ∧
      ¬ ((4 : ℚ) / 3 ≤ 1) ∧ (4 : ℚ) / 3 ≠ min 1 ((4 : ℚ) / 3) := by
  refine ⟨rfl, by norm_num, ?_⟩
  rw [min_eq_left (by norm_num)]
  norm_num

/-! ## Claim C9 -/

/-- C9: on a discussion with exactly 3 prior messages, with the companion
enabled, auto-suggest on and an OpenAI key configured: if the similarity
query returns exactly 2 matches, the discussion update increments the
breath count by exactly 1 and a suggestion with confidence 2/3 ≈ 0.67 is
saved and returned; if the query returns only 1 match, nothing is updated
and nothing is returned (the periodic advisory fires only at multiples of
8 messages, and 3 is not one). -/
theorem monitorDiscussion_pattern_detection (did : String)
    (msgs : List String) (cfg : CompanionCfg) (key : String)
    (similar : List PatternResult) (d : Discussion) (now : Nat)
    (hmsgs : msgs.length = 3) (hen : cfg.enabled = true)
    (hauto : cfg.autoSuggest = true) :
    (similar.length = 2 →
      (∃ pats, (monitorDiscussion did msgs (some cfg) (some key) similar
          (some d) now).updateCall = some (d.breathCount + 1, pats)) ∧
        ((monitorDiscussion did msgs (some cfg) (some key) similar
            (some d) now).savedSuggestion.map Suggestion.confidence) =
          some (2 / 3) ∧
        (monitorDiscussion did msgs (some cfg) (some key) similar
          (some d) now).response.isSome = true) ∧
    (similar.length = 1 →
      monitorDiscussion did msgs (some cfg) (some key) similar (some d) now =
        ⟨none, none, none, none⟩) := by
  constructor
  · intro h2
    simp [monitorDiscussion, takeLast, hmsgs, hen, hauto, h2]
  · intro h1
    simp [monitorDiscussion, takeLast, hmsgs, hen, hauto, h1]

/-- Witness for C9 at concrete inputs: a 3-message discussion with a
2-match query on one hand and (through a second application) a 1-match
query on the other. -/
theorem monitorDiscussion_pattern_detection_witness :
    (([("m" : String), "m2", "m3"] : List String).length = 3 ∧
      (∃ pats, (monitorDiscussion "d1" ["m", "m2", "m3"] (some ⟨true, true⟩)
          (some "key")
          [⟨"c1", JSNum.num 1, ⟨"gpt4", Phase.plasma, 0, ["topicA"], 0⟩⟩,
           ⟨"c2", JSNum.num 1, ⟨"gpt4", Phase.plasma, 0, ["topicA"], 0⟩⟩]
          (some ⟨"d1", 7, []⟩) 0).updateCall = some (7 + 1, pats))) ∧
      monitorDiscussion "d1" ["m", "m2", "m3"] (some ⟨true, true⟩)
          (some "key")
          [⟨"c1", JSNum.num 1, ⟨"gpt4", Phase.plasma, 0, ["topicA"], 0⟩⟩]
          (some ⟨"d1", 7, []⟩) 0 =
        ⟨none, none, none, none⟩ :=
  ⟨⟨rfl,
    ((monitorDiscussion_pattern_detection "d1" ["m", "m2", "m3"]
        ⟨true, true⟩ "key"
        [⟨"c1", JSNum.num 1, ⟨"gpt4", Phase.plasma, 0, ["topicA"], 0⟩⟩,
         ⟨"c2", JSNum.num 1, ⟨"gpt4", Phase.plasma, 0, ["topicA"], 0⟩⟩]
        ⟨"d1", 7, []⟩ 0 rfl rfl rfl).1 rfl).1⟩,
    (monitorDiscussion_pattern_detection "d1" ["m", "m2", "m3"]
        ⟨true, true⟩ "key"
        [⟨"c1", JSNum.num 1, ⟨"gpt4", Phase.plasma, 0, ["topicA"], 0⟩⟩]
        ⟨"d1", 7, []⟩ 0 rfl rfl rfl).2 rfl⟩

/-! ## Claim C5 -/

/-- C5: evaluation of `cosineSimilarity` at the inputs the claim says must
produce errors.  The code performs no zero-norm check and no length check:
with `a = [3,4]` and the zero vector `b = [0,0]` it silently returns
`0/0 = NaN`; with the mismatched-length pair `a = [1]`, `b = [1,1]` it
silently returns the finite value `1/sqrt 2` computed over the truncated
dimension.  In neither case does the comparison result in an error. -/
theorem cosineSimilarity_silent :
    cosineSimilarity [3, 4] [0, 0] = JSNum.nan ∧
      cosineSimilarity [1] [1, 1] = JSNum.num (1 / Real.sqrt 2) := by
  constructor
  · simp [cosineSimilarity, dotProductJS, dotAux, jsAdd, magnitudeJS, sumSq,
      jsDiv, Real.sqrt_zero]
  · simp [cosineSimilarity, dotProductJS, dotAux, jsAdd, magnitudeJS, sumSq,
      jsDiv]
    norm_num

/-! ## Claim C10 -/

/-- C10: the embedding store public operations never raise: both are total
functions of their oracle inputs, `storeMemory` leaves the memory list
unchanged when the embedding provider fails (returning normally), and
`findPatterns` returns the empty list on an embedding error — the same
value an error-free query on an empty store produces, so a failed query is
indistinguishable from a query with no matches at the public interface. -/
theorem semanticMemory_swallows_errors (st : List MemoryItem)
    (llmId message : String) (ph : Phase) (bn : Nat) (pats : List String)
    (now : Nat) (e : String) (threshold : ℝ) (limit : Nat) :
    storeMemory st llmId message ph bn pats now (Except.error e) = st ∧
      (findPatterns st (Except.error e) threshold limit).1 = [] ∧
      (findPatterns st (Except.error e) threshold limit).1 =
        (findPatterns [] (Except.error e) threshold limit).1 := by
  refine ⟨rfl, ?_, ?_⟩
  · simp only [findPatterns]
    split
    · rfl
    · rfl
  · simp only [findPatterns]
    split
    · rfl
    · rfl


/-! ## Helper lemmas: sums of squares, dot products, similarity values -/

theorem foldlSq_eq (v : List ℝ) :
    ∀ acc : ℝ, v.foldl (fun s y => s + y * y) acc = acc + sumSq v := by
  induction v with
  | nil => intro acc; simp [sumSq]
  | cons x v ih =>
    intro acc
    simp only [List.foldl_cons, sumSq] at ih ⊢
    rw [ih (acc + x * x), ih (0 + x * x)]
    ring

theorem sumSq_cons (x : ℝ) (v : List ℝ) :
    sumSq (x :: v) = x * x + sumSq v := by
  simp only [sumSq, List.foldl_cons]
  rw [foldlSq_eq]
  simp only [sumSq]
  ring

theorem sumSq_nonneg (v : List ℝ) : 0 ≤ sumSq v := by
  induction v with
  | nil => simp [sumSq]
  | cons x v ih =>
    rw [sumSq_cons]
    have := mul_self_nonneg x
    linarith

theorem sumSq_eq_zero_iff (v : List ℝ) :
    sumSq v = 0 ↔ ∀ x ∈ v, x = 0 := by
  induction v with
  | nil => simp [sumSq]
  | cons x v ih =>
    rw [sumSq_cons]
    constructor
    · intro h
      have h1 : x * x = 0 ∧ sumSq v = 0 :=
        (add_eq_zero_iff_of_nonneg (mul_self_nonneg x)
          (sumSq_nonneg v)).mp h
      intro y hy
      rcases List.mem_cons.mp hy with rfl | hy
      · exact mul_self_eq_zero.mp h1.1
      · exact (ih.mp h1.2) y hy
    · intro h
      have hx : x = 0 := h x (List.mem_cons_self x v)
      have hv : sumSq v = 0 := ih.mpr (fun y hy => h y (List.mem_cons_of_mem x hy))
      rw [hx, hv]
      ring

theorem magnitudeJS_eq_zero_iff (v : List ℝ) :
    magnitudeJS v = 0 ↔ ∀ x ∈ v, x = 0 := by
  rw [magnitudeJS, Real.sqrt_eq_zero (sumSq_nonneg v), sumSq_eq_zero_iff]

theorem dotAux_nan (a : List ℝ) : ∀ b : List ℝ, dotAux a b JSNum.nan = JSNum.nan := by
  induction a with
  | nil => intro b; rfl
  | cons x xs ih =>
    intro b
    cases b with
    | nil => simp only [dotAux, jsAdd]; exact ih []
    | cons y ys => simp only [dotAux, jsAdd]; exact ih ys

theorem dotAux_num_or_nan (a : List ℝ) :
    ∀ (b : List ℝ) (s : ℝ), (∃ d, dotAux a b (JSNum.num s) = JSNum.num d) ∨
      dotAux a b (JSNum.num s) = JSNum.nan := by
  induction a with
  | nil => intro b s; exact Or.inl ⟨s, rfl⟩
  | cons x xs ih =>
    intro b s
    cases b with
    | nil =>
      right
      simp only [dotAux, jsAdd]
      exact dotAux_nan xs []
    | cons y ys =>
      simp only [dotAux, jsAdd]
      exact ih ys (s + x * y)

theorem dotAux_all_zero_left (a : List ℝ) (ha : ∀ x ∈ a, x = 0) :
    ∀ (b : List ℝ) (s : ℝ), dotAux a b (JSNum.num s) = JSNum.num s ∨
      dotAux a b (JSNum.num s) = JSNum.nan := by
  induction a with
  | nil => intro b s; exact Or.inl rfl
  | cons x xs ih =>
    intro b s
    have hx : x = 0 := ha x (List.mem_cons_self x xs)
    have ha2 : ∀ y ∈ xs, y = 0 := fun y hy => ha y (List.mem_cons_of_mem x hy)
    cases b with
    | nil =>
      right
      simp only [dotAux, jsAdd]
      exact dotAux_nan xs []
    | cons y ys =>
      simp only [dotAux, jsAdd]
      have : s + x * y = s := by rw [hx]; ring
      rw [this]
      exact ih ha2 ys s

theorem dotAux_all_zero_right (a : List ℝ) :
    ∀ (b : List ℝ), (∀ y ∈ b, y = 0) → ∀ s : ℝ,
      dotAux a b (JSNum.num s) = JSNum.num s ∨
        dotAux a b (JSNum.num s) = JSNum.nan := by
  induction a with
  | nil => intro b _ s; exact Or.inl rfl
  | cons x xs ih =>
    intro b hb s
    cases b with
    | nil =>
      right
      simp only [dotAux, jsAdd]
      exact dotAux_nan xs []
    | cons y ys =>
      have hy : y = 0 := hb y (List.mem_cons_self y ys)
      have hb2 : ∀ z ∈ ys, z = 0 := fun z hz => hb z (List.mem_cons_of_mem y hz)
      simp only [dotAux, jsAdd]
      have : s + x * y = s := by rw [hy]; ring
      rw [this]
      exact ih ys hb2 s


/-- A cosine-similarity value is always an ordinary number or `NaN`: the
infinities cannot arise, because a zero denominator forces a zero (or
`NaN`) numerator. -/
theorem cosineSimilarity_num_or_nan (a b : List ℝ) :
    (∃ x, cosineSimilarity a b = JSNum.num x) ∨
      cosineSimilarity a b = JSNum.nan := by
  rw [cosineSimilarity, dotProductJS]
  rcases dotAux_num_or_nan a b 0 with ⟨d, hd⟩ | hnan
  · rw [hd]
    by_cases hm : magnitudeJS a * magnitudeJS b = 0
    · rw [hm]
      by_cases hd0 : d = 0
      · right
        rw [hd0]
        simp [jsDiv]
      · exfalso
        rcases mul_eq_zero.mp hm with hma | hmb
        · have ha := (magnitudeJS_eq_zero_iff a).mp hma
          rcases dotAux_all_zero_left a ha b 0 with h | h
          · rw [hd] at h
            exact hd0 (by injection h)
          · rw [hd] at h
            cases h
        · have hb := (magnitudeJS_eq_zero_iff b).mp hmb
          rcases dotAux_all_zero_right a b hb 0 with h | h
          · rw [hd] at h
            exact hd0 (by injection h)
          · rw [hd] at h
            cases h
    · left
      exact ⟨d / (magnitudeJS a * magnitudeJS b), by simp [jsDiv, hm]⟩
  · right
    rw [hnan]
    simp [jsDiv]

/-! ## Helper lemmas: the query pipeline of `findPatterns` -/

theorem findPatterns_ok_def (st : List MemoryItem) (hne : st ≠ [])
    (qv : List ℝ) (threshold : ℝ) (limit : Nat) :
    findPatterns st (Except.ok qv) threshold limit =
      ((((st.map (queryResult qv)).filter
          (fun r => jsGeB r.similarity (JSNum.num threshold))).mergeSort
        sortLe).take limit, 1) := by
  cases st with
  | nil => exact absurd rfl hne
  | cons m ms => rfl

theorem filtered_sims (st : List MemoryItem) (qv : List ℝ) (threshold : ℝ) :
    ∀ r ∈ (st.map (queryResult qv)).filter
        (fun r => jsGeB r.similarity (JSNum.num threshold)),
      ∃ x, r.similarity = JSNum.num x ∧ threshold ≤ x := by
  intro r hr
  obtain ⟨hmem, hfil⟩ := List.mem_filter.mp hr
  obtain ⟨m, _, hm⟩ := List.mem_map.mp hmem
  have hsim : r.similarity = cosineSimilarity qv m.embedding := by
    rw [← hm]
    rfl
  rcases cosineSimilarity_num_or_nan qv m.embedding with ⟨x, hx⟩ | hnan
  · refine ⟨x, hsim.trans hx, ?_⟩
    rw [hsim, hx] at hfil
    simpa [jsGeB] using hfil
  · rw [hsim, hnan] at hfil
    simp [jsGeB] at hfil
theorem goodLe_trans (a b c : PatternResult) (h1 : goodLe a b = true)
    (h2 : goodLe b c = true) : goodLe a c = true := by
  simp only [goodLe, decide_eq_true_eq] at h1 h2 ⊢
  exact le_trans h2 h1

theorem goodLe_total (a b : PatternResult) :
    goodLe a b || goodLe b a := by
  simp only [goodLe, decide_eq_true_eq, Bool.or_eq_true]
  exact le_total (simVal b.similarity) (simVal a.similarity)

theorem sortLe_eq_goodLe (a b : PatternResult)
    (ha : ∃ x, a.similarity = JSNum.num x)
    (hb : ∃ x, b.similarity = JSNum.num x) :
    sortLe a b = goodLe a b := by
  obtain ⟨xa, hxa⟩ := ha
  obtain ⟨xb, hxb⟩ := hb
  simp only [sortLe, goodLe, hxa, hxb, jsSub, simVal]
  exact decide_eq_decide.mpr sub_nonpos

theorem mergeSort_sorted_on_filtered (l : List PatternResult)
    (hP : ∀ r ∈ l, ∃ x, r.similarity = JSNum.num x) :
    (l.mergeSort sortLe).Pairwise
      (fun a b => simVal b.similarity ≤ simVal a.similarity) := by
  have hcongr : (l.mergeSort sortLe).map id = (l.map id).mergeSort goodLe :=
    List.map_mergeSort (fun a ha b hb =>
      sortLe_eq_goodLe a b (hP a ha) (hP b hb))
  rw [List.map_id, List.map_id] at hcongr
  rw [hcongr]
  have hs := List.sorted_mergeSort goodLe_trans
    (fun a b => goodLe_total a b) l
  exact hs.imp (fun h => by simpa [goodLe] using h)

/-- C8 (amended): for a nonempty store, `findPatterns` embeds the query
text exactly once (on the empty store it makes no embedding call and
returns the empty sequence); it computes a cosine similarity record for
every stored vector, keeps exactly the records whose similarity is an
ordinary number at or above the threshold (their count is
`min limit (number of qualifying records)`, and the result is a
permutation of all qualifying records whenever they fit within `limit`),
orders the result by descending similarity, and returns at most `limit`
entries; when no stored vector reaches the threshold the result is the
empty sequence. -/
theorem findPatterns_query_spec (st : List MemoryItem) (qv : List ℝ)
    (threshold : ℝ) (limit : Nat) :
    (st = [] → findPatterns st (Except.ok qv) threshold limit = ([], 0)) ∧
      (st ≠ [] →
        (findPatterns st (Except.ok qv) threshold limit).2 = 1) ∧
      (findPatterns st (Except.ok qv) threshold limit).1.length =
        min limit ((st.map (queryResult qv)).filter
          (fun r => jsGeB r.similarity (JSNum.num threshold))).length ∧
      (∀ r ∈ (findPatterns st (Except.ok qv) threshold limit).1,
        ∃ x, r.similarity = JSNum.num x ∧ threshold ≤ x) ∧
      (findPatterns st (Except.ok qv) threshold limit).1.Pairwise
        (fun a b => simVal b.similarity ≤ simVal a.similarity) ∧
      ((∀ m ∈ st, jsGeB (cosineSimilarity qv m.embedding)
          (JSNum.num threshold) = false) →
        (findPatterns st (Except.ok qv) threshold limit).1 = []) ∧
      (((st.map (queryResult qv)).filter
          (fun r => jsGeB r.similarity (JSNum.num threshold))).length ≤
          limit →
        (findPatterns st (Except.ok qv) threshold limit).1.Perm
          ((st.map (queryResult qv)).filter
            (fun r => jsGeB r.similarity (JSNum.num threshold)))) := by
  by_cases hne : st = []
  · subst hne
    refine ⟨fun _ => rfl, fun h => absurd rfl h, by simp [findPatterns],
      by simp [findPatterns], by simp [findPatterns],
      fun _ => by simp [findPatterns], fun _ => by simp [findPatterns]⟩
  · rw [findPatterns_ok_def st hne qv threshold limit]
    refine ⟨fun h => absurd h hne, fun _ => rfl, ?_, ?_, ?_, ?_, ?_⟩
    · rw [List.length_take, List.length_mergeSort]
    · intro r hr
      have hr2 : r ∈ ((st.map (queryResult qv)).filter
          (fun r => jsGeB r.similarity (JSNum.num threshold))).mergeSort
            sortLe := List.mem_of_mem_take hr
      exact filtered_sims st qv threshold r (List.mem_mergeSort.mp hr2)
    · refine List.Pairwise.sublist (List.take_sublist _ _) ?_
      refine mergeSort_sorted_on_filtered _ ?_
      intro r hr
      obtain ⟨x, hx, _⟩ := filtered_sims st qv threshold r hr
      exact ⟨x, hx⟩
    · intro hall
      have hfil : (st.map (queryResult qv)).filter
          (fun r => jsGeB r.similarity (JSNum.num threshold)) = [] := by
        rw [List.filter_eq_nil_iff]
        intro r hr
        obtain ⟨m, hm, hqm⟩ := List.mem_map.mp hr
        rw [← hqm]
        have : (queryResult qv m).similarity =
            cosineSimilarity qv m.embedding := rfl
        simp only [this, hall m hm]
        simp
      rw [hfil]
      simp
    · intro hlen
      rw [List.take_of_length_le (by rw [List.length_mergeSort]; exact hlen)]
      exact List.mergeSort_perm _ _


/-! ## Claim C8 -/

/-- C8 counterexample: on the empty store, `findPatterns` returns before
calling the embedding endpoint, so the query text is embedded zero times,
not once as the claim requires for every store contents. -/
theorem findPatterns_empty_store_counterexample :
    (findPatterns [] (Except.ok [(1 : ℝ)]) 0.8 5).2 = 0 ∧
      (findPatterns [] (Except.ok [(1 : ℝ)]) 0.8 5).2 ≠ 1 := by
  have h0 : (findPatterns [] (Except.ok [(1 : ℝ)]) 0.8 5).2 = 0 := rfl
  exact ⟨h0, by omega⟩


/-- Witness for C8 (amended): a one-memory store whose vector is
orthogonal to the query — the call embeds once, the similarity 0 misses
the 0.8 threshold, and the result is empty. -/
theorem findPatterns_query_spec_witness :
    (([⟨"id1", "hello", [1, 0], ⟨"gpt4", Phase.plasma, 0, [], 0⟩⟩] :
        List MemoryItem) ≠ []) ∧
      (findPatterns
        [⟨"id1", "hello", [1, 0], ⟨"gpt4", Phase.plasma, 0, [], 0⟩⟩]
        (Except.ok [0, 1]) 0.8 5).2 = 1 ∧
      (findPatterns
        [⟨"id1", "hello", [1, 0], ⟨"gpt4", Phase.plasma, 0, [], 0⟩⟩]
        (Except.ok [0, 1]) 0.8 5).1 = [] := by
  refine ⟨by simp, ?_, ?_⟩
  · exact (findPatterns_query_spec
      [⟨"id1", "hello", [1, 0], ⟨"gpt4", Phase.plasma, 0, [], 0⟩⟩]
      [0, 1] 0.8 5).2.1 (by simp)
  · refine (findPatterns_query_spec
      [⟨"id1", "hello", [1, 0], ⟨"gpt4", Phase.plasma, 0, [], 0⟩⟩]
      [0, 1] 0.8 5).2.2.2.2.2.1 ?_
    intro m hm
    simp only [List.mem_singleton] at hm
    subst hm
    simp [cosineSimilarity, dotProductJS, dotAux, jsAdd, magnitudeJS,
      sumSq, jsDiv, jsGeB]
    norm_num

end GrandCentral
